import Mathlib

/-!
Verification of the forgewright release pipeline against its specification.

The TypeScript sources are shallowly embedded: JS strings are modeled as
Lean strings (operated on through their character lists), JS numbers used
as integers/naturals are modeled as Nat or Int, JS numbers used as
fractional quantities (delays, scores) as rationals, and every remote or
ambient effect (AI response, current date, release URLs) is lifted to an
explicit parameter together with a boolean or trace recording whether the
remote path was taken.
-/

namespace Forgewright

/-- JS "haystack.includes(needle)" on character lists: some suffix of the
haystack has the needle as a prefix. -/
def containsSub (haystack needle : List Char) : Bool :=
  match haystack with
  | [] => needle.isEmpty
  | _ :: rest => needle.isPrefixOf haystack || containsSub rest needle

/-- JS "s.includes(pat)" on strings. -/
def strIncludes (s pat : String) : Bool :=
  containsSub s.toList pat.toList

/-- JS "s.startsWith(pat)" on strings. -/
def strStartsWith (s pat : String) : Bool :=
  pat.toList.isPrefixOf s.toList

/-- JS "s.toLowerCase()" (ASCII range, which is all the sources use). -/
def strLower (s : List Char) : List Char :=
  s.map Char.toLower

-- ===== Core data model (packages/core/src/analyzer.ts, git schema) =====

inductive VersionBump where
  | major
  | minor
  | patch
deriving DecidableEq, Repr

structure Commit where
  hash : String
  shortHash : String
  message : String
  body : String
  authorName : String
  authorEmail : String
  date : Int
  files : List String
deriving DecidableEq, Repr

inductive WorkUnitStatus where
  | in_progress
  | complete
  | abandoned
deriving DecidableEq, Repr

inductive WorkUnitValue where
  | low
  | medium
  | high
deriving DecidableEq, Repr

structure WorkUnit where
  id : String
  name : String
  description : String
  status : WorkUnitStatus
  commits : List String
  value : WorkUnitValue
  createdAt : Int
  completedAt : Option Int
deriving DecidableEq, Repr

/-- ReadinessScoreSchema object shape. Numeric fields are JS numbers,
modeled as rationals. -/
structure ReadinessScore where
  total : ℚ
  completeness : ℚ
  value : ℚ
  coherence : ℚ
  stability : ℚ
  ready : Bool
  suggestedVersion : Option String
  suggestedBump : Option VersionBump
  reasoning : String
deriving DecidableEq, Repr

/-- The range checks of ReadinessScoreSchema (z.number().min(...).max(...));
the schema checks only these bounds, nothing relating total to the parts. -/
def readinessScoreSchemaValid (s : ReadinessScore) : Bool :=
  decide (0 ≤ s.total) && decide (s.total ≤ 100) &&
  decide (0 ≤ s.completeness) && decide (s.completeness ≤ 40) &&
  decide (0 ≤ s.value) && decide (s.value ≤ 30) &&
  decide (0 ≤ s.coherence) && decide (s.coherence ≤ 20) &&
  decide (0 ≤ s.stability) && decide (s.stability ≤ 10)

-- ===== parseVersion / bumpVersion (packages/core/src/analyzer.ts) =====

/-- Greedy run of decimal digits at the head of the list, with the rest:
the list-level meaning of a leading regex group (\d+). -/
def takeDigits : List Char → List Char × List Char
  | [] => ([], [])
  | c :: cs =>
    if c.isDigit then
      let p := takeDigits cs
      (c :: p.1, p.2)
    else ([], c :: cs)

/-- Value of a decimal digit run, as Number.parseInt(_, 10) computes it. -/
def digitsToNat (ds : List Char) : Nat :=
  ds.foldl (fun n c => 10 * n + (c.toNat - 48)) 0

/-- The anchored match of /^(\d+)\.(\d+)\.(\d+)/ : three nonempty digit
runs separated by dots at the head of the input; whatever trails the third
run is ignored (the regex has no end anchor). -/
def matchSemverTriple (cs : List Char) : Option (Nat × Nat × Nat) :=
  match takeDigits cs with
  | ([], _) => none
  | (d1, r1) =>
    match r1 with
    | '.' :: r1a =>
      match takeDigits r1a with
      | ([], _) => none
      | (d2, r2) =>
        match r2 with
        | '.' :: r2a =>
          match takeDigits r2a with
          | ([], _) => none
          | (d3, _) => some (digitsToNat d1, digitsToNat d2, digitsToNat d3)
        | _ => none
    | _ => none

/-- version.replace(/^v/, "") : drop one leading lowercase "v" if present. -/
def stripLeadingV : List Char → List Char
  | [] => []
  | c :: rest => if c = 'v' then rest else c :: rest

/-- parseVersion from packages/core/src/analyzer.ts: strip a leading "v",
match /^(\d+)\.(\d+)\.(\d+)/, default to 0.0.0 on no match. -/
def parseVersion (version : String) : Nat × Nat × Nat :=
  match matchSemverTriple (stripLeadingV version.toList) with
  | some t => t
  | none => (0, 0, 0)

/-- Decimal printing of a natural number, as a JS template literal prints
a nonnegative integer number. -/
def natRepr (n : Nat) : List Char :=
  if h : n < 10 then [Char.ofNat (48 + n)]
  else natRepr (n / 10) ++ [Char.ofNat (48 + n % 10)]
decreasing_by exact Nat.div_lt_self (Nat.pos_of_ne_zero (by omega)) (by omega)

/-- bumpVersion from packages/core/src/analyzer.ts. -/
def bumpVersion (version : String) (bump : VersionBump) : String :=
  let p := parseVersion version
  let hadV : Bool := strStartsWith version "v"
  let newVersion : List Char :=
    match bump with
    | .major => natRepr (p.1 + 1) ++ [ '.', '0', '.', '0' ]
    | .minor => natRepr p.1 ++ '.' :: natRepr (p.2.1 + 1) ++ [ '.', '0' ]
    | .patch => natRepr p.1 ++ '.' :: natRepr p.2.1 ++ '.' :: natRepr (p.2.2 + 1)
  String.mk (if hadV then 'v' :: newVersion else newVersion)

/-- Modelled from the spec: the claimed input form "v?X.Y.Z with an
optional trailing pre-release/build label" — an optional leading "v",
three nonempty digit runs separated by dots, then either the end of the
string or a label introduced by "-" (pre-release) or "+" (build). -/
def versionWellFormedSpec (s : String) : Bool :=
  let cs := stripLeadingV s.toList
  match takeDigits cs with
  | ([], _) => false
  | (_, r1) =>
    match r1 with
    | '.' :: r1a =>
      match takeDigits r1a with
      | ([], _) => false
      | (_, r2) =>
        match r2 with
        | '.' :: r2a =>
          match takeDigits r2a with
          | ([], _) => false
          | (_, rest) =>
            match rest with
            | [] => true
            | '-' :: _ => true
            | '+' :: _ => true
            | _ => false
        | _ => false
    | _ => false

-- ===== Retry utilities (packages/ai/src/utils.ts) =====

/-- A thrown JS value: an Error object carrying a message, or any
non-Error value (string, null, number, ...). -/
inductive JSValue where
  | error (message : String)
  | nonError
deriving DecidableEq, Repr

/-- isRetryableError from packages/ai/src/utils.ts: case-insensitive
substring checks on the message of an Error instance; false otherwise. -/
def isRetryableError (e : JSValue) : Bool :=
  match e with
  | .error msg =>
    let m := strLower msg.toList
    (containsSub m "rate limit".toList || containsSub m "too many requests".toList) ||
    (containsSub m "timeout".toList || containsSub m "network".toList ||
      containsSub m "econnreset".toList || containsSub m "econnrefused".toList) ||
    (containsSub m "500".toList || containsSub m "502".toList ||
      containsSub m "503".toList) ||
    (containsSub m "overloaded".toList || containsSub m "capacity".toList)
  | .nonError => false

/-- RetryOptions, with every field required (the merge of DEFAULT_OPTIONS
with the call-site options). maxRetries is a JS integer. Delays are JS
numbers, modeled as rationals. -/
structure RetryOptions (ε : Type) where
  maxRetries : Int
  initialDelayMs : ℚ
  maxDelayMs : ℚ
  shouldRetry : ε → Bool

/-- DEFAULT_OPTIONS from packages/ai/src/utils.ts. -/
def DEFAULT_OPTIONS : RetryOptions JSValue :=
  { maxRetries := 3
    initialDelayMs := 1000
    maxDelayMs := 10000
    shouldRetry := isRetryableError }

/-- exponentialDelay inside calculateBackoff: initialDelayMs * 2^(attempt-1). -/
def exponentialDelay (attempt : Nat) (initialDelayMs : ℚ) : ℚ :=
  initialDelayMs * 2 ^ (attempt - 1)

/-- The delay calculateBackoff would return with no cap: the exponential
delay plus its jitter term rand * 0.3 * exponentialDelay, where rand is
the Math.random() draw from [0, 1). -/
def uncappedBackoff (attempt : Nat) (initialDelayMs rand : ℚ) : ℚ :=
  exponentialDelay attempt initialDelayMs +
    rand * (3 / 10) * exponentialDelay attempt initialDelayMs

/-- calculateBackoff from packages/ai/src/utils.ts, with the Math.random()
draw lifted to the parameter rand. -/
def calculateBackoff (attempt : Nat) (initialDelayMs maxDelayMs rand : ℚ) : ℚ :=
  min (uncappedBackoff attempt initialDelayMs rand) maxDelayMs

/-- Observable outcome of a withRetry call: the returned value, a thrown
error value, or a thrown undefined (the post-loop "throw lastError" when
the loop body never ran). -/
inductive RetryOutcome (ε α : Type) where
  | ok (value : α)
  | err (e : ε)
  | undef
deriving DecidableEq, Repr

/-- The for-loop of withRetry. fn gives the outcome of the k-th invocation
of the wrapped operation; attempt is the current 1-based loop index;
remaining counts how many loop iterations are still allowed, so that
remaining = maxRetries - attempt + 1 and isLastAttempt means the next
value of remaining is 0. Returns the outcome together with the number of
times the operation was invoked. -/
def withRetryGo (fn : Nat → Except ε α) (shouldRetry : ε → Bool) :
    Nat → Nat → RetryOutcome ε α × Nat
  | _, 0 => (.undef, 0)
  | attempt, remaining + 1 =>
    match fn attempt with
    | .ok a => (.ok a, attempt)
    | .error e =>
      if remaining = 0 || !shouldRetry e then (.err e, attempt)
      else withRetryGo fn shouldRetry (attempt + 1) remaining

/-- withRetry from packages/ai/src/utils.ts. The k-th invocation of the
wrapped operation is modeled by fn k; the sleep between attempts does not
affect the outcome and is omitted. A maxRetries below 1 skips the loop
entirely and falls through to "throw lastError" with lastError still
undefined. -/
def withRetry (fn : Nat → Except ε α) (opts : RetryOptions ε) :
    RetryOutcome ε α × Nat :=
  withRetryGo fn opts.shouldRetry 1 opts.maxRetries.toNat

-- ===== Analyzer (packages/ai/src/analyzer.ts) =====

/-- evaluateReadiness. The one remote generateObject call is modeled by
the schema-validated response `remote`; the returned boolean records
whether that remote call was made. -/
def evaluateReadiness (commits : List Commit) (workUnits : List WorkUnit)
    (currentVersion : String) (ciPassing : Bool) (remote : ReadinessScore) :
    ReadinessScore × Bool :=
  if commits.isEmpty && workUnits.isEmpty then
    ({ total := 0
       completeness := 0
       value := 0
       coherence := 0
       stability := if ciPassing then 10 else 0
       ready := false
       suggestedVersion := none
       suggestedBump := none
       reasoning := "No changes since last release" }, false)
  else (remote, true)

/-- The breaking-change test of suggestVersionBump on one commit:
message contains "BREAKING", or message starts with "!", or body contains
"BREAKING CHANGE". -/
def commitHasBreaking (c : Commit) : Bool :=
  strIncludes c.message "BREAKING" || strStartsWith c.message "!" ||
    strIncludes c.body "BREAKING CHANGE"

/-- suggestVersionBump from packages/ai/src/analyzer.ts (deterministic,
no remote call). -/
def suggestVersionBump (workUnits : List WorkUnit) (commits : List Commit) :
    VersionBump :=
  if commits.any commitHasBreaking then .major
  else if workUnits.any (fun u => u.value == .high) ||
      commits.any (fun c => strStartsWith c.message "feat") then .minor
  else .patch

-- ===== ChangelogGenerator (packages/ai/src, changelog module) =====

/-- The bullet list `commits.map(c => "- " + c.message).join("\n")`. -/
def bulletList (commits : List Commit) : String :=
  String.intercalate "\n" (commits.map (fun c => "- " ++ c.message))

/-- generateMinimalChangelog, with the ambient current date (the
YYYY-MM-DD prefix of new Date().toISOString()) lifted to the parameter
date. -/
def generateMinimalChangelog (commits : List Commit) (version date : String) :
    String :=
  if commits.isEmpty then
    "## " ++ version ++ " - " ++ date ++ "\n\nNo significant changes."
  else
    let features := commits.filter (fun c => strStartsWith c.message "feat")
    let fixes := commits.filter (fun c => strStartsWith c.message "fix")
    let others := commits.filter
      (fun c => !strStartsWith c.message "feat" && !strStartsWith c.message "fix")
    let sections : List String :=
      ["## " ++ version ++ " - " ++ date]
      ++ (if features.length > 0 then ["\n### New Features\n", bulletList features]
          else [])
      ++ (if fixes.length > 0 then ["\n### Bug Fixes\n", bulletList fixes]
          else [])
      ++ (if others.length > 0 && features.length == 0 && fixes.length == 0 then
            ["\n### Changes\n", bulletList others]
          else [])
    String.join sections

/-- ChangelogGenerator.generate. The one remote generateText call is
modeled by remoteText; the returned boolean records whether that remote
call was made. -/
def generate (workUnits : List WorkUnit) (commits : List Commit)
    (version date remoteText : String) : String × Bool :=
  let completeUnits := workUnits.filter (fun u => u.status == .complete)
  if completeUnits.isEmpty then (generateMinimalChangelog commits version date, false)
  else (remoteText, true)

/-- Modelled from the spec wording of the deterministic template: a dated
heading; a New Features section when some commit has the feat prefix; a
Bug Fixes section when some commit has the fix prefix; a generic Changes
section listing all commits exactly when neither prefix occurs among the
commits; and for zero commits the heading plus the fixed line. -/
def minimalChangelogSpec (commits : List Commit) (version date : String) :
    String :=
  let heading := "## " ++ version ++ " - " ++ date
  if commits.isEmpty then heading ++ "\n\nNo significant changes."
  else
    let features := commits.filter (fun c => strStartsWith c.message "feat")
    let fixes := commits.filter (fun c => strStartsWith c.message "fix")
    heading
    ++ (if !features.isEmpty then "\n### New Features\n" ++ bulletList features
        else "")
    ++ (if !fixes.isEmpty then "\n### Bug Fixes\n" ++ bulletList fixes else "")
    ++ (if features.isEmpty && fixes.isEmpty then
          "\n### Changes\n" ++ bulletList commits
        else "")

/-- The whitespace class of a JS regex \s (ASCII part plus NBSP; the
sources only ever meet ASCII whitespace). -/
def jsWhitespace (c : Char) : Bool :=
  c = ' ' || c = '\t' || c = '\n' || c = '\r' ||
    c = Char.ofNat 11 || c = Char.ofNat 12 || c = Char.ofNat 160

/-- Greedy run of JS whitespace at the head of the list. -/
def takeWs : List Char → List Char × List Char
  | [] => ([], [])
  | c :: cs =>
    if jsWhitespace c then
      let p := takeWs cs
      (c :: p.1, p.2)
    else ([], c :: cs)

/-- Index of the last occurrence of a character in a list, if any. -/
def lastIdxOf (c : Char) : List Char → Option Nat
  | [] => none
  | x :: xs =>
    match lastIdxOf c xs with
    | some k => some (k + 1)
    | none => if x = c then some 0 else none

/-- The anchored match of /^#\s+Changelog\s*\n/i, returning the length of
the matched text: a "#", one or more whitespace (the greedy run, since no
whitespace can begin the literal that follows), the nine letters of
"changelog" case-insensitively, then a possibly empty whitespace run that
must end with a newline. Because a newline is itself whitespace, the
greedy \s* with backtracking ends the match right after the last newline
inside the whitespace run following the literal; with no such newline the
whole regex fails. -/
def matchChangelogHeader (cs : List Char) : Option Nat :=
  match cs with
  | [] => none
  | c :: rest =>
    if c = '#' then
      let p1 := takeWs rest
      if p1.1.isEmpty then none
      else
        let r1 := p1.2
        if strLower (r1.take 9) = "changelog".toList ∧ 9 ≤ r1.length then
          let p2 := takeWs (r1.drop 9)
          match lastIdxOf '\n' p2.1 with
          | some k => some (1 + p1.1.length + 9 + k + 1)
          | none => none
        else none
    else none

/-- updateChangelogFile: splice the new entry right after the matched
header, or prepend a fresh header when the regex does not match. -/
def updateChangelogFile (existingContent newEntry : String) : String :=
  match matchChangelogHeader existingContent.toList with
  | some insertPos =>
    String.mk (existingContent.toList.take insertPos
      ++ '\n' :: newEntry.toList ++ '\n' :: existingContent.toList.drop insertPos)
  | none => "# Changelog\n\n" ++ newEntry ++ "\n\n" ++ existingContent

-- ===== Release engine (packages/cli/src/engine.ts) =====

structure ReleaseResult where
  version : String
  changelog : String
  tagCreated : Bool
  githubReleaseUrl : Option String
deriving DecidableEq, Repr

/-- The externally visible mutating operations executeRelease can
perform, in the order it performs them. -/
inductive ReleaseEffect where
  | createTag (name annotation : String)
  | pushTag (name : String)
  | publishWithCLI (tag title notes : String)
  | publishWithAPI (owner repoName tag name body : String)
deriving DecidableEq, Repr

/-- executeRelease from packages/cli/src/engine.ts. Collaborator answers
are lifted to parameters: isClean is git.isClean(), repo is
github.parseRepoFromRemote (owner and name, or none when unresolvable),
ghCliAvailable is the CLI probe, and cliUrl / apiUrl are the URLs the CLI
and REST publication paths would return. createRelease is
config.github.createRelease. Returns the thrown-or-returned result
together with the trace of mutating effects. -/
def executeRelease (dryRun skipGitHub createRelease isClean : Bool)
    (repo : Option (String × String)) (ghCliAvailable : Bool)
    (cliUrl apiUrl : String) (version changelog : String) :
    Except String ReleaseResult × List ReleaseEffect :=
  if dryRun then
    (.ok { version := version, changelog := changelog, tagCreated := false
           githubReleaseUrl := none }, [])
  else if !isClean then
    (.error "Working directory is not clean. Commit or stash changes first.", [])
  else
    let tagName := if strStartsWith version "v" then version else "v" ++ version
    let tagEffects : List ReleaseEffect :=
      [.createTag tagName ("Release " ++ version), .pushTag tagName]
    if !skipGitHub && createRelease then
      match repo with
      | some r =>
        if ghCliAvailable then
          (.ok { version := version, changelog := changelog, tagCreated := true
                 githubReleaseUrl := some cliUrl },
            tagEffects ++ [.publishWithCLI tagName version changelog])
        else
          (.ok { version := version, changelog := changelog, tagCreated := true
                 githubReleaseUrl := some apiUrl },
            tagEffects ++ [.publishWithAPI r.1 r.2 tagName version changelog])
      | none =>
        (.ok { version := version, changelog := changelog, tagCreated := true
               githubReleaseUrl := none }, tagEffects)
    else
      (.ok { version := version, changelog := changelog, tagCreated := true
             githubReleaseUrl := none }, tagEffects)

-- ===== Concrete sample values used by witnesses and counterexamples =====

/-- A schema-valid stand-in for a remote readiness response. -/
def sampleRemoteScore : ReadinessScore :=
  { total := 50
    completeness := 20
    value := 15
    coherence := 10
    stability := 5
    ready := false
    suggestedVersion := none
    suggestedBump := none
    reasoning := "model output" }

def sampleCommit (message body : String) : Commit :=
  { hash := "0123456789abcdef"
    shortHash := "0123456"
    message := message
    body := body
    authorName := "Dev"
    authorEmail := "dev@example.com"
    date := 1700000000
    files := ["src/index.ts"] }

def sampleUnit (status : WorkUnitStatus) (value : WorkUnitValue) : WorkUnit :=
  { id := "wu-1"
    name := "Unit"
    description := "A unit of work"
    status := status
    commits := ["0123456789abcdef"]
    value := value
    createdAt := 1700000000
    completedAt := none }

def rateLimitError : JSValue := .error "rate limit exceeded"

def fatalError : JSValue := .error "Invalid API key"

/-- Fails retryably on the first two invocations, succeeds on the third. -/
def opSucceedsThird : Nat → Except JSValue Nat :=
  fun n => if n ≤ 2 then .error rateLimitError else .ok 42

/-- Always fails with a non-retryable error. -/
def opFatal : Nat → Except JSValue Nat :=
  fun _ => .error fatalError

/-- Always fails with a retryable error. -/
def opAlwaysRateLimited : Nat → Except JSValue Nat :=
  fun _ => .error rateLimitError

/-- The default options with the attempt budget forced to zero. -/
def zeroRetryOptions : RetryOptions JSValue :=
  { DEFAULT_OPTIONS with maxRetries := 0 }

/-- True when the list does not begin with a decimal digit (so a greedy
digit run cannot extend into it). -/
def headNotDigit : List Char → Bool
  | [] => true
  | c :: _ => !c.isDigit

-- ===================================================================
-- Theorems
-- ===================================================================

-- ----- shared helper lemmas -----

theorem takeDigits_append (ds rest : List Char) (hd : ∀ c ∈ ds, c.isDigit)
    (hr : ∀ c, rest.head? = some c → c.isDigit = false) :
    takeDigits (ds ++ rest) = (ds, rest) := by
  induction ds with
  | nil =>
    simp only [List.nil_append]
    cases rest with
    | nil => rfl
    | cons c cs =>
      have hcd := hr c rfl
      simp [takeDigits, hcd]
  | cons c cs ih =>
    have hc : c.isDigit := hd c (by simp)
    have ihe := ih (fun x hx => hd x (by simp [hx]))
    simp [takeDigits, hc, ihe]

theorem digitsToNat_append (l : List Char) (c : Char) :
    digitsToNat (l ++ [c]) = 10 * digitsToNat l + (c.toNat - 48) := by
  simp [digitsToNat, List.foldl_append]

/-- Decimal printing round-trips through digit parsing, is never empty,
and produces only digit characters. -/
theorem natRepr_spec (n : Nat) :
    digitsToNat (natRepr n) = n ∧ natRepr n ≠ [] ∧
      ∀ c ∈ natRepr n, c.isDigit := by
  induction n using Nat.strong_induction_on with
  | _ n ih =>
    rw [natRepr]
    by_cases h : n < 10
    · simp only [dif_pos h]
      refine ⟨?_, by simp, ?_⟩
      · interval_cases n <;> decide
      · interval_cases n <;> decide
    · have hdiv : n / 10 < n := Nat.div_lt_self (by omega) (by omega)
      obtain ⟨ih1, _, ih3⟩ := ih (n / 10) hdiv
      simp only [dif_neg h]
      refine ⟨?_, by simp, ?_⟩
      · rw [digitsToNat_append, ih1]
        have hm : n % 10 < 10 := Nat.mod_lt _ (by omega)
        have hchar : (Char.ofNat (48 + n % 10)).toNat = 48 + n % 10 := by
          set m := n % 10 with hmdef
          clear_value m
          interval_cases m <;> decide
        rw [hchar]
        omega
      · intro c hc
        rcases List.mem_append.mp hc with h1 | h2
        · exact ih3 c h1
        · have hm : n % 10 < 10 := Nat.mod_lt _ (by omega)
          simp only [List.mem_singleton] at h2
          subst h2
          set m := n % 10 with hmdef
          clear_value m
          interval_cases m <;> decide

theorem stripLeadingV_cons_of_ne (c : Char) (l : List Char) (h : c ≠ 'v') :
    stripLeadingV (c :: l) = c :: l := by
  simp [stripLeadingV, h]

theorem matchSemverTriple_append (d1 d2 d3 rest : List Char)
    (h1 : d1 ≠ []) (hd1 : ∀ c ∈ d1, c.isDigit)
    (h2 : d2 ≠ []) (hd2 : ∀ c ∈ d2, c.isDigit)
    (h3 : d3 ≠ []) (hd3 : ∀ c ∈ d3, c.isDigit)
    (hr : ∀ c, rest.head? = some c → c.isDigit = false) :
    matchSemverTriple (d1 ++ '.' :: d2 ++ '.' :: d3 ++ rest)
      = some (digitsToNat d1, digitsToNat d2, digitsToNat d3) := by
  have e1 : takeDigits (d1 ++ '.' :: (d2 ++ '.' :: d3 ++ rest))
      = (d1, '.' :: (d2 ++ '.' :: d3 ++ rest)) :=
    takeDigits_append _ _ hd1 (by intro c hc; simp at hc; subst hc; decide)
  have e2 : takeDigits (d2 ++ '.' :: (d3 ++ rest))
      = (d2, '.' :: (d3 ++ rest)) :=
    takeDigits_append _ _ hd2 (by intro c hc; simp at hc; subst hc; decide)
  have e3 : takeDigits (d3 ++ rest) = (d3, rest) :=
    takeDigits_append _ _ hd3 hr
  obtain ⟨a1, t1, rfl⟩ := List.exists_cons_of_ne_nil h1
  obtain ⟨a2, t2, rfl⟩ := List.exists_cons_of_ne_nil h2
  obtain ⟨a3, t3, rfl⟩ := List.exists_cons_of_ne_nil h3
  simp only [List.cons_append, List.append_assoc] at e1 e2 e3 ⊢
  simp [matchSemverTriple, e1, e2, e3]

-- ----- C1 -----

/-- C1 (counterexample): on the zero-change short-circuit with CI
passing, the produced ReadinessScore has total 0 but component sum 10, so
the claimed sum invariant fails on a score the scorer itself produces. -/
theorem evaluateReadiness_total_ne_sum_counterexample :
    ((evaluateReadiness [] [] "1.0.0" true sampleRemoteScore).1.total ≠
      (evaluateReadiness [] [] "1.0.0" true sampleRemoteScore).1.completeness +
      (evaluateReadiness [] [] "1.0.0" true sampleRemoteScore).1.value +
      (evaluateReadiness [] [] "1.0.0" true sampleRemoteScore).1.coherence +
      (evaluateReadiness [] [] "1.0.0" true sampleRemoteScore).1.stability) := by
  simp [evaluateReadiness]

/-- C1 (amended): the short-circuit score satisfies the sum invariant
exactly when CI is failing (with CI passing its stability is 10 while its
total stays 0), and on every non-short-circuit path the scorer returns
the remote response as-is, enforcing no relation between total and the
components. -/
theorem evaluateReadiness_total_eq_sum_characterization :
    ∀ (cv : String) (ci : Bool) (r : ReadinessScore),
      (((evaluateReadiness [] [] cv ci r).1.total =
          (evaluateReadiness [] [] cv ci r).1.completeness +
          (evaluateReadiness [] [] cv ci r).1.value +
          (evaluateReadiness [] [] cv ci r).1.coherence +
          (evaluateReadiness [] [] cv ci r).1.stability) ↔ ci = false)
      ∧ (∀ (c : Commit) (cs : List Commit) (wus : List WorkUnit),
          (evaluateReadiness (c :: cs) wus cv ci r).1 = r)
      ∧ (∀ (commits : List Commit) (w : WorkUnit) (wus : List WorkUnit),
          (evaluateReadiness commits (w :: wus) cv ci r).1 = r) := by
  intro cv ci r
  refine ⟨?_, ?_, ?_⟩
  · cases ci <;> simp [evaluateReadiness]
  · intro c cs wus
    simp [evaluateReadiness]
  · intro commits w wus
    cases commits <;> simp [evaluateReadiness]

-- ----- C2 -----

/-- C2 (counterexample): the short-circuit reasoning string is not the
all-lowercase "no changes since last release" the claim states. -/
theorem evaluateReadiness_reasoning_case_counterexample :
    (evaluateReadiness [] [] "1.0.0" true sampleRemoteScore).1.reasoning ≠
      "no changes since last release" := by
  decide

/-- C2 (amended): with both lists empty the scorer short-circuits, for
every current version and remote oracle, to completeness 0, value 0,
coherence 0, total 0, stability 10 when CI passes and 0 otherwise,
ready false, reasoning "No changes since last release" (capital N), and
the remote call is never made. -/
theorem evaluateReadiness_zero_change_short_circuit :
    ∀ (cv : String) (ci : Bool) (r : ReadinessScore),
      evaluateReadiness [] [] cv ci r =
        ({ total := 0
           completeness := 0
           value := 0
           coherence := 0
           stability := if ci then 10 else 0
           ready := false
           suggestedVersion := none
           suggestedBump := none
           reasoning := "No changes since last release" }, false) := by
  intro cv ci r
  rfl

-- ----- C3 -----

/-- C3: if any commit carries a breaking marker ("BREAKING" in the
message, a leading "!", or "BREAKING CHANGE" in the body), the heuristic
answers major, whatever feature commits or high-value work units are also
present. -/
theorem suggestVersionBump_breaking_short_circuits :
    ∀ (workUnits : List WorkUnit) (commits : List Commit) (c : Commit),
      c ∈ commits → commitHasBreaking c = true →
      suggestVersionBump workUnits commits = .major := by
  intro workUnits commits c hmem hbrk
  have : commits.any commitHasBreaking = true :=
    List.any_eq_true.mpr ⟨c, hmem, hbrk⟩
  simp [suggestVersionBump, this]

/-- C3 witness: a breaking-footer commit alongside a feature commit and a
high-value work unit still yields major. -/
theorem suggestVersionBump_breaking_short_circuits_witness :
    suggestVersionBump [sampleUnit .complete .high]
      [sampleCommit "feat: shiny" "", sampleCommit "chore: cleanup" "BREAKING CHANGE: api"]
      = .major :=
  suggestVersionBump_breaking_short_circuits
    [sampleUnit .complete .high]
    [sampleCommit "feat: shiny" "", sampleCommit "chore: cleanup" "BREAKING CHANGE: api"]
    (sampleCommit "chore: cleanup" "BREAKING CHANGE: api")
    (by decide) (by decide)

-- ----- C5 -----

/-- C5: a dry run returns the would-be result immediately (tagCreated
false, no release URL) with an empty effect trace — nothing tagged,
pushed, or published; a non-dry run on a dirty working tree fails with
the cleanliness error, also with an empty effect trace, so the failure
happens before any tag is created. -/
theorem executeRelease_dry_run_and_dirty_tree :
    ∀ (skipGitHub createRelease isClean : Bool)
      (repo : Option (String × String)) (ghCliAvailable : Bool)
      (cliUrl apiUrl version changelog : String),
      (executeRelease true skipGitHub createRelease isClean repo
          ghCliAvailable cliUrl apiUrl version changelog
        = (.ok { version := version, changelog := changelog
                 tagCreated := false, githubReleaseUrl := none }, []))
      ∧ (executeRelease false skipGitHub createRelease false repo
          ghCliAvailable cliUrl apiUrl version changelog
        = (.error "Working directory is not clean. Commit or stash changes first.",
            [])) := by
  intro skipGitHub createRelease isClean repo ghCliAvailable cliUrl apiUrl version changelog
  exact ⟨rfl, rfl⟩

-- ----- C7 -----

/-- C7: for attempt n at least 1, positive initial delay d, and a
Math.random() draw in [0, 1) (so a jitter factor in [0, 0.3)), the
uncapped backoff lies in [d * 2^(n-1), d * 2^(n-1) * 1.3], and the capped
delay calculateBackoff returns never exceeds the configured maximum. -/
theorem calculateBackoff_bounds :
    ∀ (attempt : Nat) (d maxD rand : ℚ),
      1 ≤ attempt → 0 < d → 0 ≤ rand → rand < 1 →
      d * 2 ^ (attempt - 1) ≤ uncappedBackoff attempt d rand
      ∧ uncappedBackoff attempt d rand ≤ d * 2 ^ (attempt - 1) * (13 / 10)
      ∧ calculateBackoff attempt d maxD rand ≤ maxD := by
  intro attempt d maxD rand _ hd hr0 hr1
  have hexp : (0 : ℚ) < 2 ^ (attempt - 1) := by positivity
  have he : 0 < d * 2 ^ (attempt - 1) := by positivity
  refine ⟨?_, ?_, ?_⟩
  · have : 0 ≤ rand * (3 / 10) * (d * 2 ^ (attempt - 1)) := by positivity
    simp only [uncappedBackoff, exponentialDelay]
    linarith
  · simp only [uncappedBackoff, exponentialDelay]
    nlinarith
  · exact min_le_right _ _

/-- C7 witness: concrete bounds at attempt 3, initial delay 1000, cap
10000, and a Math.random() draw of one half. -/
theorem calculateBackoff_bounds_witness :
    (1000 : ℚ) * 2 ^ (3 - 1) ≤ uncappedBackoff 3 1000 (1 / 2)
    ∧ uncappedBackoff 3 1000 (1 / 2) ≤ 1000 * 2 ^ (3 - 1) * (13 / 10)
    ∧ calculateBackoff 3 1000 10000 (1 / 2) ≤ 10000 :=
  calculateBackoff_bounds 3 1000 10000 (1 / 2)
    (by norm_num) (by norm_num) (by norm_num) (by norm_num)

-- ----- C10 -----

/-- C10: with a maximum attempt count of zero or below, the retry loop
body never runs: the wrapped operation is invoked zero times and the call
falls through to throwing the still-undefined lastError, for every
operation and error type. -/
theorem withRetry_nonpositive_budget_throws_undefined :
    ∀ (ε α : Type) (fn : Nat → Except ε α) (opts : RetryOptions ε),
      opts.maxRetries ≤ 0 → withRetry fn opts = (.undef, 0) := by
  intro ε α fn opts h
  have : opts.maxRetries.toNat = 0 := Int.toNat_of_nonpos h
  simp [withRetry, this, withRetryGo]

/-- C10 witness: an operation that would succeed on its third invocation
is never invoked under a zero budget; the call throws undefined. -/
theorem withRetry_nonpositive_budget_throws_undefined_witness :
    withRetry opSucceedsThird zeroRetryOptions = (.undef, 0) :=
  withRetry_nonpositive_budget_throws_undefined JSValue Nat opSucceedsThird
    zeroRetryOptions (by decide)

-- ----- C6 -----

/-- C6: under the default options (3 attempts, isRetryableError as the
predicate), an operation failing retryably twice then succeeding returns
the success value after exactly 3 invocations; a non-retryable first
failure is re-raised after exactly 1 invocation; and three failures with
the first two retryable exhaust the budget and re-raise the last error
after 3 invocations. -/
theorem withRetry_default_options_behavior :
    ∀ (α : Type) (fn : Nat → Except JSValue α) (e1 e2 e3 : JSValue) (a : α),
      (fn 1 = .error e1 → fn 2 = .error e2 → fn 3 = .ok a →
        isRetryableError e1 = true → isRetryableError e2 = true →
        withRetry fn DEFAULT_OPTIONS = (.ok a, 3))
      ∧ (fn 1 = .error e1 → isRetryableError e1 = false →
        withRetry fn DEFAULT_OPTIONS = (.err e1, 1))
      ∧ (fn 1 = .error e1 → fn 2 = .error e2 → fn 3 = .error e3 →
        isRetryableError e1 = true → isRetryableError e2 = true →
        withRetry fn DEFAULT_OPTIONS = (.err e3, 3)) := by
  intro α fn e1 e2 e3 a
  refine ⟨?_, ?_, ?_⟩
  · intro h1 h2 h3 hr1 hr2
    simp [withRetry, DEFAULT_OPTIONS, withRetryGo, h1, h2, h3, hr1, hr2]
  · intro h1 hr1
    simp [withRetry, DEFAULT_OPTIONS, withRetryGo, h1, hr1]
  · intro h1 h2 h3 hr1 hr2
    simp [withRetry, DEFAULT_OPTIONS, withRetryGo, h1, h2, h3, hr1, hr2]

/-- C6 witness: the three behaviors on concrete operations — two
rate-limit failures then success gives the value after 3 invocations, an
invalid-key failure re-raises after 1, and persistent rate limiting
re-raises the last error after 3. -/
theorem withRetry_default_options_behavior_witness :
    withRetry opSucceedsThird DEFAULT_OPTIONS = (.ok 42, 3)
    ∧ withRetry opFatal DEFAULT_OPTIONS = (.err fatalError, 1)
    ∧ withRetry opAlwaysRateLimited DEFAULT_OPTIONS = (.err rateLimitError, 3) :=
  ⟨(withRetry_default_options_behavior Nat opSucceedsThird rateLimitError
      rateLimitError rateLimitError 42).1 rfl rfl rfl (by decide) (by decide),
   (withRetry_default_options_behavior Nat opFatal fatalError fatalError
      fatalError 0).2.1 rfl (by decide),
   (withRetry_default_options_behavior Nat opAlwaysRateLimited rateLimitError
      rateLimitError rateLimitError 0).2.2 rfl rfl rfl (by decide) (by decide)⟩

-- ----- C8 -----

theorem string_data_ext (a b : String) (h : a.data = b.data) : a = b := by
  cases a
  cases b
  exact congrArg String.mk h

/-- The deterministic template the generator builds is exactly the
template the specification describes: sections present iff their commit
group is nonempty, and a Changes section over all commits iff neither
prefix occurs. -/
theorem generateMinimalChangelog_eq_spec (commits : List Commit)
    (version date : String) :
    generateMinimalChangelog commits version date
      = minimalChangelogSpec commits version date := by
  by_cases hc : commits.isEmpty
  · simp [generateMinimalChangelog, minimalChangelogSpec, hc]
  · have hcommits : commits ≠ [] := by
      simpa [List.isEmpty_iff] using hc
    by_cases hf : commits.filter (fun c => strStartsWith c.message "feat") = []
    · by_cases hx : commits.filter (fun c => strStartsWith c.message "fix") = []
      · have hothers : commits.filter
            (fun c => !strStartsWith c.message "feat"
              && !strStartsWith c.message "fix") = commits := by
          apply List.filter_eq_self.mpr
          intro a ha
          have h1 := List.filter_eq_nil_iff.mp hf a ha
          have h2 := List.filter_eq_nil_iff.mp hx a ha
          simp only [Bool.not_eq_true] at h1 h2
          simp [h1, h2]
        apply string_data_ext
        simp [generateMinimalChangelog, minimalChangelogSpec, hc, hf, hx,
          hothers, hcommits, String.data_join, String.data_append,
          List.length_pos, List.append_assoc]
      · have hxlen : 0 < (commits.filter
            (fun c => strStartsWith c.message "fix")).length :=
          List.length_pos.mpr hx
        apply string_data_ext
        simp [generateMinimalChangelog, minimalChangelogSpec, hc, hf, hx,
          hxlen, Nat.pos_iff_ne_zero.mp hxlen, String.data_join,
          String.data_append, List.append_assoc]
    · have hflen : 0 < (commits.filter
          (fun c => strStartsWith c.message "feat")).length :=
        List.length_pos.mpr hf
      by_cases hx : commits.filter (fun c => strStartsWith c.message "fix") = []
      · apply string_data_ext
        simp [generateMinimalChangelog, minimalChangelogSpec, hc, hf, hx,
          hflen, Nat.pos_iff_ne_zero.mp hflen, String.data_join,
          String.data_append, List.append_assoc]
      · have hxlen : 0 < (commits.filter
            (fun c => strStartsWith c.message "fix")).length :=
          List.length_pos.mpr hx
        apply string_data_ext
        simp [generateMinimalChangelog, minimalChangelogSpec, hc, hf, hx,
          hflen, hxlen, Nat.pos_iff_ne_zero.mp hflen,
          Nat.pos_iff_ne_zero.mp hxlen, String.data_join,
          String.data_append, List.append_assoc]

/-- C8: whenever no work unit is complete, the generator answers without
the remote call and returns precisely the deterministic template of the
specification — dated heading, New Features and Bug Fixes sections each
present only when nonempty, a Changes section over all commits only when
neither prefix occurs, and the fixed no-significant-changes line for zero
commits. -/
theorem generate_fallback_matches_spec :
    ∀ (workUnits : List WorkUnit) (commits : List Commit)
      (version date remoteText : String),
      (∀ u ∈ workUnits, u.status ≠ .complete) →
      generate workUnits commits version date remoteText
        = (minimalChangelogSpec commits version date, false) := by
  intro wus commits version date remoteText h
  have hfilter : wus.filter (fun u => u.status == .complete) = [] :=
    List.filter_eq_nil_iff.mpr (fun u hu => by simpa using h u hu)
  simp [generate, hfilter, generateMinimalChangelog_eq_spec]

/-- C8 witness: scenario A — a feat, a fix and a docs commit with only
incomplete work units produce the deterministic template (and no remote
call). -/
theorem generate_fallback_matches_spec_witness :
    generate [sampleUnit .in_progress .high]
      [sampleCommit "feat: add X" "", sampleCommit "fix: Y" "",
        sampleCommit "docs: Z" ""] "1.0.0" "2026-10-11" "AI narrative"
      = (minimalChangelogSpec
          [sampleCommit "feat: add X" "", sampleCommit "fix: Y" "",
            sampleCommit "docs: Z" ""] "1.0.0" "2026-10-11", false) :=
  generate_fallback_matches_spec [sampleUnit .in_progress .high]
    [sampleCommit "feat: add X" "", sampleCommit "fix: Y" "",
      sampleCommit "docs: Z" ""] "1.0.0" "2026-10-11" "AI narrative"
    (by decide)

-- ----- C4 -----

theorem headNotDigit_spec (rest : List Char) (h : headNotDigit rest = true) :
    ∀ c, rest.head? = some c → c.isDigit = false := by
  cases rest with
  | nil => intro c hc; simp at hc
  | cons a l =>
    intro c hc
    simp only [List.head?_cons, Option.some.injEq] at hc
    subst hc
    simpa [headNotDigit] using h

theorem startsWith_v_mk_digit (d : Char) (l : List Char) (hd : d.isDigit) :
    strStartsWith (String.mk (d :: l)) "v" = false := by
  have hne : 'v' ≠ d := by
    intro h
    rw [← h] at hd
    simpa using hd
  simp [strStartsWith, String.toList, List.isPrefixOf, hne]

theorem strStartsWith_mk_v_cons (nv : List Char) :
    strStartsWith (String.mk ('v' :: nv)) "v" = true := by
  simp [strStartsWith, String.toList, List.isPrefixOf]

/-- parseVersion on a string that (after an optional leading "v") begins
with three nonempty digit runs separated by dots, followed by anything
that does not begin with a digit: the three runs are returned, whatever
the trailing text is. -/
theorem parseVersion_core (hasV : Bool) (d1 d2 d3 rest : List Char)
    (h1 : d1 ≠ []) (hd1 : ∀ c ∈ d1, c.isDigit)
    (h2 : d2 ≠ []) (hd2 : ∀ c ∈ d2, c.isDigit)
    (h3 : d3 ≠ []) (hd3 : ∀ c ∈ d3, c.isDigit)
    (hr : headNotDigit rest = true) :
    parseVersion (String.mk ((if hasV then ['v'] else [])
        ++ d1 ++ '.' :: d2 ++ '.' :: d3 ++ rest))
      = (digitsToNat d1, digitsToNat d2, digitsToNat d3) := by
  have hm := matchSemverTriple_append d1 d2 d3 rest h1 hd1 h2 hd2 h3 hd3
    (headNotDigit_spec rest hr)
  obtain ⟨a1, t1, rfl⟩ := List.exists_cons_of_ne_nil h1
  have ha1 : a1.isDigit := hd1 a1 (by simp)
  have hne : a1 ≠ 'v' := by
    intro h
    rw [h] at ha1
    simpa using ha1
  cases hasV with
  | false =>
    simp only [if_neg Bool.false_ne_true, List.nil_append, List.cons_append]
    simp only [List.cons_append, List.append_assoc] at hm
    simp [parseVersion, String.toList, stripLeadingV, hne, hm]
  | true =>
    simp only [if_pos rfl, List.cons_append, List.singleton_append]
    simp only [List.cons_append, List.append_assoc] at hm
    simp [parseVersion, String.toList, stripLeadingV, hm]

/-- C4 (counterexample): "1.2.3 oops" is not of the claimed well-formed
shape v?X.Y.Z with an optional pre-release/build label, yet parseVersion
returns (1, 2, 3) for it, not the (0, 0, 0) the claim requires for
malformed strings. -/
theorem parseVersion_malformed_counterexample :
    versionWellFormedSpec "1.2.3 oops" = false
    ∧ parseVersion "1.2.3 oops" = (1, 2, 3)
    ∧ ((1, 2, 3) : Nat × Nat × Nat) ≠ (0, 0, 0) :=
  ⟨by decide, by decide, by decide⟩

/-- C4 (amended): parseVersion returns the three numeric components for
every string that, after an optional leading "v", starts with a
digits.digits.digits prefix not directly followed by another digit — any
trailing text is ignored, label or not — and returns (0, 0, 0) exactly
when no such prefix matches; bumpVersion increments the parsed components
as claimed (major resets minor and patch, minor resets patch), and its
output carries a leading "v" if and only if the input did. -/
theorem parseVersion_bumpVersion_spec :
    (∀ (hasV : Bool) (d1 d2 d3 rest : List Char),
      d1 ≠ [] → (∀ c ∈ d1, c.isDigit) →
      d2 ≠ [] → (∀ c ∈ d2, c.isDigit) →
      d3 ≠ [] → (∀ c ∈ d3, c.isDigit) →
      headNotDigit rest = true →
      parseVersion (String.mk ((if hasV then ['v'] else [])
          ++ d1 ++ '.' :: d2 ++ '.' :: d3 ++ rest))
        = (digitsToNat d1, digitsToNat d2, digitsToNat d3))
    ∧ (∀ version : String,
      matchSemverTriple (stripLeadingV version.toList) = none →
      parseVersion version = (0, 0, 0))
    ∧ (∀ version : String,
      parseVersion (bumpVersion version .major)
          = ((parseVersion version).1 + 1, 0, 0)
      ∧ parseVersion (bumpVersion version .minor)
          = ((parseVersion version).1, (parseVersion version).2.1 + 1, 0)
      ∧ parseVersion (bumpVersion version .patch)
          = ((parseVersion version).1, (parseVersion version).2.1,
              (parseVersion version).2.2 + 1)
      ∧ ∀ b : VersionBump,
          strStartsWith (bumpVersion version b) "v" = strStartsWith version "v") := by
  refine ⟨parseVersion_core, ?_, ?_⟩
  · intro version h
    have h2 : matchSemverTriple (stripLeadingV version.toList) = none := h
    unfold parseVersion
    rw [h2]
  · intro version
    obtain ⟨r1, rn1, rd1⟩ := natRepr_spec (parseVersion version).1
    obtain ⟨r1s, rn1s, rd1s⟩ := natRepr_spec ((parseVersion version).1 + 1)
    obtain ⟨r2, rn2, rd2⟩ := natRepr_spec (parseVersion version).2.1
    obtain ⟨r2s, rn2s, rd2s⟩ := natRepr_spec ((parseVersion version).2.1 + 1)
    obtain ⟨r3s, rn3s, rd3s⟩ := natRepr_spec ((parseVersion version).2.2 + 1)
    refine ⟨?_, ?_, ?_, ?_⟩
    · have hshape : bumpVersion version .major
          = String.mk ((if strStartsWith version "v" then ['v'] else [])
            ++ natRepr ((parseVersion version).1 + 1)
            ++ '.' :: ['0'] ++ '.' :: ['0'] ++ []) := by
        cases hv2 : strStartsWith version "v" <;> simp [bumpVersion, hv2]
      rw [hshape, parseVersion_core _ _ _ _ _ rn1s rd1s (by simp)
        (by decide) (by simp) (by decide) (by decide)]
      rw [r1s]
      rfl
    · have hshape : bumpVersion version .minor
          = String.mk ((if strStartsWith version "v" then ['v'] else [])
            ++ natRepr (parseVersion version).1
            ++ '.' :: natRepr ((parseVersion version).2.1 + 1)
            ++ '.' :: ['0'] ++ []) := by
        cases hv2 : strStartsWith version "v" <;> simp [bumpVersion, hv2]
      rw [hshape, parseVersion_core _ _ _ _ _ rn1 rd1 rn2s rd2s (by simp)
        (by decide) (by decide)]
      rw [r1, r2s]
      rfl
    · have hshape : bumpVersion version .patch
          = String.mk ((if strStartsWith version "v" then ['v'] else [])
            ++ natRepr (parseVersion version).1
            ++ '.' :: natRepr (parseVersion version).2.1
            ++ '.' :: natRepr ((parseVersion version).2.2 + 1) ++ []) := by
        cases hv2 : strStartsWith version "v" <;> simp [bumpVersion, hv2]
      rw [hshape, parseVersion_core _ _ _ _ _ rn1 rd1 rn2 rd2 rn3s rd3s
        (by decide)]
      rw [r1, r2, r3s]
    · intro b
      cases hv : strStartsWith version "v" with
      | true =>
        cases b <;> simp [bumpVersion, hv, strStartsWith_mk_v_cons]
      | false =>
        cases b with
        | major =>
          obtain ⟨c0, cs0, he⟩ := List.exists_cons_of_ne_nil rn1s
          have hc0 : c0.isDigit := rd1s c0 (by simp [he])
          simp only [bumpVersion, hv, Bool.false_eq_true, if_false]
          rw [show natRepr ((parseVersion version).1 + 1) ++ ([ '.', '0', '.', '0' ] : List Char)
              = natRepr ((parseVersion version).1 + 1) ++ [ '.', '0', '.', '0' ] from rfl]
          rw [he]
          simpa using startsWith_v_mk_digit c0 (cs0 ++ [ '.', '0', '.', '0' ]) hc0
        | minor =>
          obtain ⟨c0, cs0, he⟩ := List.exists_cons_of_ne_nil rn1
          have hc0 : c0.isDigit := rd1 c0 (by simp [he])
          simp only [bumpVersion, hv, Bool.false_eq_true, if_false]
          rw [he]
          simpa using startsWith_v_mk_digit c0
            (cs0 ++ '.' :: natRepr ((parseVersion version).2.1 + 1) ++ [ '.', '0' ]) hc0
        | patch =>
          obtain ⟨c0, cs0, he⟩ := List.exists_cons_of_ne_nil rn1
          have hc0 : c0.isDigit := rd1 c0 (by simp [he])
          simp only [bumpVersion, hv, Bool.false_eq_true, if_false]
          rw [he]
          simpa using startsWith_v_mk_digit c0
            (cs0 ++ '.' :: natRepr (parseVersion version).2.1
              ++ '.' :: natRepr ((parseVersion version).2.2 + 1)) hc0

/-- C4 witness: a well-formed labeled version parses to its components,
and a string with no numeric prefix parses to (0, 0, 0). -/
theorem parseVersion_bumpVersion_spec_witness :
    parseVersion "v1.2.3-beta" = (1, 2, 3)
    ∧ parseVersion "not a version" = (0, 0, 0) := by
  constructor
  · have h := parseVersion_bumpVersion_spec.1 true ['1'] ['2'] ['3']
      "-beta".toList (by decide) (by decide) (by decide) (by decide)
      (by decide) (by decide) (by decide)
    have he : String.mk ((if true then ['v'] else [])
        ++ ['1'] ++ '.' :: ['2'] ++ '.' :: ['3'] ++ "-beta".toList)
        = "v1.2.3-beta" := by decide
    have hv : (digitsToNat ['1'], digitsToNat ['2'], digitsToNat ['3'])
        = ((1 : Nat), (2 : Nat), (3 : Nat)) := by decide
    rw [he, hv] at h
    exact h
  · exact parseVersion_bumpVersion_spec.2.1 "not a version" (by decide)

-- ----- C9 -----

theorem takeWs_decomp (l : List Char) : (takeWs l).1 ++ (takeWs l).2 = l := by
  induction l with
  | nil => rfl
  | cons c cs ih =>
    by_cases hc : jsWhitespace c
    · simp [takeWs, hc, ih]
    · simp [takeWs, hc]

theorem takeWs_all_ws (l : List Char) : ∀ c ∈ (takeWs l).1, jsWhitespace c := by
  induction l with
  | nil => simp [takeWs]
  | cons c cs ih =>
    by_cases hc : jsWhitespace c
    · simp only [takeWs, hc, if_true]
      intro x hx
      rcases List.mem_cons.mp hx with h1 | h2
      · exact h1 ▸ hc
      · exact ih x h2
    · simp [takeWs, hc]

theorem lastIdxOf_spec (c : Char) (l : List Char) (k : Nat)
    (h : lastIdxOf c l = some k) : k < l.length ∧ l[k]? = some c := by
  induction l generalizing k with
  | nil => simp [lastIdxOf] at h
  | cons x xs ih =>
    simp only [lastIdxOf] at h
    cases hx : lastIdxOf c xs with
    | some m =>
      rw [hx] at h
      simp only [Option.some.injEq] at h
      subst h
      obtain ⟨hm1, hm2⟩ := ih m hx
      refine ⟨by simpa using Nat.succ_lt_succ hm1, by simpa using hm2⟩
    | none =>
      rw [hx] at h
      by_cases hxc : x = c
      · rw [if_pos hxc] at h
        simp only [Option.some.injEq] at h
        subst h
        exact ⟨by simp, by simp [hxc]⟩
      · rw [if_neg hxc] at h
        simp at h

/-- When the header regex matches with length n, the matched prefix has
exactly the shape of a leading changelog header: a "#", a nonempty
whitespace run, the word "changelog" up to case, more whitespace, and a
final newline. -/
theorem matchChangelogHeader_decomp (cs : List Char) (n : Nat)
    (h : matchChangelogHeader cs = some n) :
    ∃ w1 lit w2, cs.take n = '#' :: (w1 ++ (lit ++ (w2 ++ ['\n'])))
      ∧ w1 ≠ [] ∧ (∀ c ∈ w1, jsWhitespace c)
      ∧ strLower lit = "changelog".toList
      ∧ ∀ c ∈ w2, jsWhitespace c := by
  cases cs with
  | nil => simp [matchChangelogHeader] at h
  | cons c rest =>
    simp only [matchChangelogHeader] at h
    by_cases hc : c = '#'
    case neg => simp [hc] at h
    rw [if_pos hc] at h
    by_cases he : (takeWs rest).1.isEmpty
    · rw [if_pos he] at h
      simp at h
    rw [if_neg he] at h
    by_cases hlit : strLower ((takeWs rest).2.take 9) = "changelog".toList
        ∧ 9 ≤ (takeWs rest).2.length
    case neg => rw [if_neg hlit] at h; simp at h
    rw [if_pos hlit] at h
    cases hk : lastIdxOf '\n' (takeWs ((takeWs rest).2.drop 9)).1 with
    | none => rw [hk] at h; simp at h
    | some k =>
      rw [hk] at h
      simp only [Option.some.injEq] at h
      obtain ⟨hkb, hkg⟩ := lastIdxOf_spec '\n' _ k hk
      have hw1 : ∀ c ∈ (takeWs rest).1, jsWhitespace c := takeWs_all_ws rest
      have hw2 : ∀ c ∈ (takeWs ((takeWs rest).2.drop 9)).1, jsWhitespace c :=
        takeWs_all_ws _
      have hrest : (takeWs rest).1 ++ (takeWs rest).2 = rest := takeWs_decomp rest
      have hdrop : (takeWs ((takeWs rest).2.drop 9)).1
          ++ (takeWs ((takeWs rest).2.drop 9)).2 = (takeWs rest).2.drop 9 :=
        takeWs_decomp _
      obtain ⟨w1, r1, hp1⟩ : ∃ w1 r1, takeWs rest = (w1, r1) := ⟨_, _, rfl⟩
      rw [hp1] at he hlit hk hkb hkg hw1 hw2 hrest hdrop h
      dsimp only at he hlit hk hkb hkg hw1 hw2 hrest hdrop h
      obtain ⟨w2f, r2, hp2⟩ : ∃ w2f r2, takeWs (r1.drop 9) = (w2f, r2) :=
        ⟨_, _, rfl⟩
      rw [hp2] at hk hkb hkg hw2 hdrop
      dsimp only at hk hkb hkg hw2 hdrop
      refine ⟨w1, r1.take 9, w2f.take k, ?_, ?_, hw1, hlit.1,
        fun x hx => hw2 x (List.take_subset k _ hx)⟩
      · have hn : n = (w1.length + (9 + (k + 1))) + 1 := by omega
        have hw2take : w2f.take (k + 1) = w2f.take k ++ ['\n'] := by
          rw [List.take_succ, hkg]
          rfl
        rw [hn, hc, List.take_succ_cons, ← hrest, List.take_append,
          List.take_add r1 9 (k + 1), ← hdrop,
          List.take_append_of_le_length (by omega), hw2take]
      · simpa [List.isEmpty_iff] using he

/-- C9: when the header regex matches a prefix of length n, the merge
splices newline, entry, newline right after that prefix, and the matched
prefix really is a leading case-insensitive changelog header with
tolerated trailing whitespace; when it does not match, the merge prepends
a fresh header, the entry, and the untouched prior content; and in every
case the previous content survives in order as a sublist of the output. -/
theorem updateChangelogFile_preserves :
    ∀ existing newEntry : String,
      (∀ n, matchChangelogHeader existing.toList = some n →
        ((∃ w1 lit w2,
            existing.toList.take n = '#' :: (w1 ++ (lit ++ (w2 ++ ['\n'])))
            ∧ w1 ≠ [] ∧ (∀ c ∈ w1, jsWhitespace c)
            ∧ strLower lit = "changelog".toList
            ∧ ∀ c ∈ w2, jsWhitespace c)
          ∧ (updateChangelogFile existing newEntry).toList
            = existing.toList.take n ++ '\n' :: newEntry.toList
                ++ '\n' :: existing.toList.drop n))
      ∧ (matchChangelogHeader existing.toList = none →
          updateChangelogFile existing newEntry
            = "# Changelog\n\n" ++ newEntry ++ "\n\n" ++ existing)
      ∧ List.Sublist existing.toList
          (updateChangelogFile existing newEntry).toList := by
  intro existing newEntry
  refine ⟨?_, ?_, ?_⟩
  · intro n hn
    refine ⟨matchChangelogHeader_decomp existing.toList n hn, ?_⟩
    have heq : updateChangelogFile existing newEntry
        = String.mk (existing.toList.take n ++ '\n' :: newEntry.toList
            ++ '\n' :: existing.toList.drop n) := by
      unfold updateChangelogFile
      rw [hn]
    rw [heq]
    rfl
  · intro hn
    unfold updateChangelogFile
    rw [hn]
  · cases hm : matchChangelogHeader existing.toList with
    | some n =>
      have heq : updateChangelogFile existing newEntry
          = String.mk (existing.toList.take n ++ '\n' :: newEntry.toList
              ++ '\n' :: existing.toList.drop n) := by
        unfold updateChangelogFile
        rw [hm]
      rw [heq]
      have hshape : (String.mk (existing.toList.take n ++ '\n' :: newEntry.toList
          ++ '\n' :: existing.toList.drop n)).toList
          = (existing.toList.take n ++ ('\n' :: newEntry.toList ++ ['\n']))
            ++ existing.toList.drop n := by
        show existing.toList.take n ++ '\n' :: newEntry.toList
            ++ '\n' :: existing.toList.drop n = _
        simp [List.append_assoc]
      rw [hshape]
      nth_rewrite 1 [(List.take_append_drop n existing.toList).symm]
      exact List.Sublist.append (List.sublist_append_left _ _)
        (List.Sublist.refl _)
    | none =>
      have heq : updateChangelogFile existing newEntry
          = "# Changelog\n\n" ++ newEntry ++ "\n\n" ++ existing := by
        unfold updateChangelogFile
        rw [hm]
      rw [heq]
      show List.Sublist existing.data _
      simp only [String.toList, String.data_append]
      exact List.sublist_append_right _ _

/-- C9 witness: a file with a leading header receives the entry right
after the 12-character header prefix, and a file without one is rebuilt
as header, entry, then untouched prior content. -/
theorem updateChangelogFile_preserves_witness :
    ((updateChangelogFile "# Changelog\nold content" "NEW").toList
      = "# Changelog\nold content".toList.take 12 ++ '\n' :: "NEW".toList
          ++ '\n' :: "# Changelog\nold content".toList.drop 12)
    ∧ updateChangelogFile "plain text" "NEW2"
        = "# Changelog\n\n" ++ "NEW2" ++ "\n\n" ++ "plain text" :=
  ⟨((updateChangelogFile_preserves "# Changelog\nold content" "NEW").1 12
      (by decide)).2,
   (updateChangelogFile_preserves "plain text" "NEW2").2.1 (by decide)⟩

end Forgewright
